import Mathlib

namespace Ics

/-- Token kinds. Translated from the itemType enumeration in src/lexer.go,
together with the three kinds referenced by src/parser.go (itemProperty,
itemParam, itemValue) whose declarations are not under src/.
Modelled from the spec: section 3 lists the token kinds Begin, End,
PropertyName, ParameterBlock, Value, Error, EndOfInput; the last three
constructors below stand for PropertyName, ParameterBlock and Value. -/
inductive ItemType where
  | itemError | itemEOF
  | itemColon | itemSemiColon | itemBegin | itemEnd
  | itemVCalendar | itemVersion | itemProdID | itemCalscale | itemMethod
  | itemVEvent | itemVAlarm | itemVTimeZone | itemX
  | itemSummary | itemUID | itemSequence | itemStatus | itemTransp
  | itemRrule | itemDTStart | itemDTEnd | itemDTStamp | itemCategories
  | itemLocation | itemGeo | itemDescription | itemURL | itemTrigger
  | itemTZID | itemTZOffsetFrom | itemTZOffsetTo
  | itemRecur | itemDate | itemTime | itemTimeZone | itemLatLong
  | itemString | itemInteger
  | itemProperty | itemParam | itemValue
  deriving DecidableEq, Repr

/-- A lexical item: a token kind plus the raw text payload (struct item in
src/lexer.go). -/
structure item where
  typ : ItemType
  val : String
  deriving DecidableEq, Repr

/-- Go map[string]string, modelled as an association list where an insert
removes any previous binding of the same key (last write wins) and lookup
finds the unique binding. -/
abbrev Props := List (String × String)

/-- Insertion into a Props map: the Go assignment m[k] = v. -/
def propInsert (m : Props) (k v : String) : Props :=
  (k, v) :: m.filter (fun p => p.1 ≠ k)

/-- Lookup in a Props map: the Go read m[k] with its ok flag. -/
def propLookup (m : Props) (k : String) : Option String :=
  (m.find? (fun p => p.1 = k)).map (fun p => p.2)

/-- Splitting a character list at every occurrence of a separator, with the
semantics of Go strings.Split: the result always has one more element than
there are separators, so the empty input yields one empty element. -/
def splitSep (sep : Char) : List Char → List (List Char)
  | [] => [[]]
  | c :: rest =>
    if c = sep then [] :: splitSep sep rest
    else
      match splitSep sep rest with
      | [] => [[c]]
      | h :: t => (c :: h) :: t

/-- Digit run to a natural number; none when the list is empty or contains a
non-digit. Helper for the strconv.Atoi model. -/
def digitsToNat : List Char → Option Nat
  | [] => none
  | [c] => if c.isDigit then some (c.toNat - '0'.toNat) else none
  | c :: rest =>
    if c.isDigit then
      (digitsToNat rest).map (fun n =>
        (c.toNat - '0'.toNat) * 10 ^ rest.length + n)
    else none

/-- Go strconv.Atoi: an optional sign followed by at least one decimal digit
and nothing else. Integers are unbounded here; every call site in
src/parser.go range-checks the result well inside the machine range, so the
overflow error of Atoi coincides with the range error of the caller. -/
def atoi : List Char → Option Int
  | '+' :: rest => (digitsToNat rest).map Int.ofNat
  | '-' :: rest => (digitsToNat rest).map (fun n => -(n : Int))
  | l => (digitsToNat l).map Int.ofNat

/-- Value of a digit-and-dot mantissa scan: digits before the dot, digits
after the dot. Returns (numerator, number of fractional digits) or none when
no digit at all is present. Helper for the strconv.ParseFloat model. -/
def scanMantissa (l : List Char) : Option (Nat × Nat) :=
  let intPart := l.takeWhile Char.isDigit
  let rest := l.dropWhile Char.isDigit
  match rest with
  | '.' :: frac =>
    if frac.all Char.isDigit ∧ (intPart ≠ [] ∨ frac ≠ []) then
      some ((digitsToNat (intPart ++ frac)).getD 0, frac.length)
    else none
  | [] =>
    if intPart ≠ [] then some ((digitsToNat intPart).getD 0, 0) else none
  | _ => none

/-- Go strconv.ParseFloat restricted to the plain decimal forms
[sign] digits [. digits] [e|E [sign] digits] that iCalendar geo values use;
the result is kept as an exact rational, which is faithful for the claims at
stake (they concern which substring each coordinate is taken from, not
binary rounding). -/
def parseFloat (l : List Char) : Option Rat :=
  let (sign, body) :=
    match l with
    | '+' :: rest => ((1 : Int), rest)
    | '-' :: rest => ((-1 : Int), rest)
    | _ => ((1 : Int), l)
  let mantPart := body.takeWhile (fun c => c ≠ 'e' ∧ c ≠ 'E')
  let expPart := body.dropWhile (fun c => c ≠ 'e' ∧ c ≠ 'E')
  match scanMantissa mantPart with
  | none => none
  | some (num, fracLen) =>
    match expPart with
    | [] => some (mkRat (sign * num) (10 ^ fracLen))
    | _ :: expDigits =>
      match expDigits with
      | '+' :: ds =>
        (digitsToNat ds).map (fun e => mkRat (sign * num * 10 ^ e) (10 ^ fracLen))
      | '-' :: ds =>
        (digitsToNat ds).map (fun e => mkRat (sign * num) (10 ^ (fracLen + e)))
      | ds =>
        (digitsToNat ds).map (fun e => mkRat (sign * num * 10 ^ e) (10 ^ fracLen))

/-- A timezone location: name plus UTC offset in seconds. Models the Go
time.Location values returned by time.LoadLocation for the fixed instants
exercised in this development. -/
structure Location where
  name : String
  offset : Int
  deriving DecidableEq, Repr

/-- The UTC location, the default of Go time.Parse. -/
def utcLoc : Location := ⟨"UTC", 0⟩

/-- Go time.Time, reduced to what the parser observes: the absolute instant
as seconds since the Unix epoch, plus the location the instant is displayed
in. time.Time.In changes only the location, never the instant. -/
structure GoTime where
  sec : Int
  loc : Location
  deriving DecidableEq, Repr

/-- Go t.In(loc): same instant, displayed in loc. -/
def GoTime.inLoc (t : GoTime) (loc : Location) : GoTime := ⟨t.sec, loc⟩

/-- Days since 1970-01-01 of a civil date (proleptic Gregorian); the
days_from_civil algorithm used by civil-time libraries. All divisions act on
non-negative operands for the 4-digit years produced by the date parsers. -/
def daysFromCivil (y m d : Int) : Int :=
  let y1 : Int := if m ≤ 2 then y - 1 else y
  let era : Int := (if 0 ≤ y1 then y1 else y1 - 399) / 400
  let yoe : Int := y1 - era * 400
  let mp : Int := if 2 < m then m - 3 else m + 9
  let doy : Int := (153 * mp + 2) / 5 + d - 1
  let doe : Int := yoe * 365 + yoe / 4 - yoe / 100 + doy
  era * 146097 + doe - 719468

/-- Seconds since the Unix epoch of a civil date-time, UTC. -/
def civilToSec (y mo d h mi s : Int) : Int :=
  daysFromCivil y mo d * 86400 + h * 3600 + mi * 60 + s

/-- Civil date-time fields of an epoch-second count (inverse of civilToSec);
the civil_from_days algorithm. -/
def secToCivil (z : Int) : Int × Int × Int × Int × Int × Int :=
  let days : Int := Int.fdiv z 86400
  let rem : Int := z - days * 86400
  let z1 : Int := days + 719468
  let era : Int := (if 0 ≤ z1 then z1 else z1 - 146096) / 146097
  let doe : Int := z1 - era * 146097
  let yoe : Int := (doe - doe / 1460 + doe / 36524 - doe / 146096) / 365
  let y : Int := yoe + era * 400
  let doy : Int := doe - (365 * yoe + yoe / 4 - yoe / 100)
  let mp : Int := (5 * doy + 2) / 153
  let d : Int := doy - (153 * mp + 2) / 5 + 1
  let m : Int := if mp < 10 then mp + 3 else mp - 9
  let y2 : Int := if m ≤ 2 then y + 1 else y
  (y2, m, d, rem / 3600, rem / 60 % 60, rem % 60)

/-- The civil fields of a GoTime as displayed in its own location (what the
Go accessors t.Year(), t.Month(), ... return). -/
def GoTime.fields (t : GoTime) : Int × Int × Int × Int × Int × Int :=
  secToCivil (t.sec + t.loc.offset)

/-- The zero Go time.Time: January 1, year 1, 00:00:00 UTC. -/
def goTimeZero : GoTime := ⟨civilToSec 1 1 1 0 0 0, utcLoc⟩

/-- Classification enum from src/calendar.go; the first constructor is the
Go zero value. -/
inductive Class where
  | classPublic | classPrivate | classConfidential
  deriving DecidableEq, Repr

/-- Frequency enum from src/calendar.go. -/
inductive Frequency where
  | secondly | minutely | hourly | daily | weekly | monthly | yearly
  deriving DecidableEq, Repr

/-- Go time.Weekday (Sunday is the zero value). -/
inductive Weekday where
  | sunday | monday | tuesday | wednesday | thursday | friday | saturday
  deriving DecidableEq, Repr

/-- WDay from src/calendar.go: a signed ordinal plus a weekday. -/
structure WDay where
  Num : Int
  Weekday : Weekday
  deriving DecidableEq, Repr

/-- Rrule from src/calendar.go. Pointer fields become Option; slice fields
become lists whose Go zero value nil is the empty list; time.Month elements
are carried as integers. -/
structure Rrule where
  Freq : Frequency := .secondly
  Until : Option GoTime := none
  Count : Option Int := none
  Interval : Option Int := none
  BySecond : List Int := []
  ByMinute : List Int := []
  ByHour : List Int := []
  ByDay : List WDay := []
  ByMonthday : List Int := []
  ByYearday : List Int := []
  ByWeekNo : List Int := []
  ByMonth : List Int := []
  BySetPos : List Int := []
  Wkst : Option Weekday := none
  deriving DecidableEq, Repr

/-- GeoPoint from src/calendar.go; float64 coordinates are modelled as exact
rationals. -/
structure GeoPoint where
  Latitude : Rat := 0
  Longitude : Rat := 0
  deriving DecidableEq, Repr

/-- Attendee from src/calendar.go. -/
structure Attendee where
  Parameters : Props := []
  Value : String := ""
  deriving DecidableEq, Repr

/-- Action enum from src/calendar.go. -/
inductive Action where
  | audio | display | email
  deriving DecidableEq, Repr

/-- Alarm from src/calendar.go; time.Duration becomes an integer count of
nanoseconds. -/
structure Alarm where
  Trigger : String := ""
  Repeat : Int := 0
  Duration : Int := 0
  Action : Action := .audio
  Description : String := ""
  Attendee : String := ""
  Summary : String := ""
  Attach : String := ""
  deriving DecidableEq, Repr

/-- Standard from src/calendar.go. -/
structure Standard where
  TZOffsetFrom : Int := 0
  TZOffsetTo : Int := 0
  TZName : String := ""
  DTStart : GoTime := goTimeZero
  Rrule : Option Rrule := none
  Rdate : String := ""
  deriving DecidableEq, Repr

/-- TimeZone from src/calendar.go; the TZURL url.URL is kept as its raw
text (url.Parse is modelled as accepting, see parseEvent's URL case). -/
structure TimeZone where
  Properties : Props := []
  TZID : String := ""
  TZURL : Option String := none
  Daylight : Option Standard := none
  Standard : Option Standard := none
  deriving DecidableEq, Repr

/-- Event from src/calendar.go. Pointer fields become Option, the zero
time.Time becomes goTimeZero, and the Class zero value is classPublic
exactly as the Go enum's zero. -/
structure Event where
  Properties : Props := []
  Class : Class := .classPublic
  Created : GoTime := goTimeZero
  LastModified : GoTime := goTimeZero
  Summary : String := ""
  Description : String := ""
  UID : String := ""
  Sequence : Int := 0
  Status : String := ""
  Transp : String := ""
  Rrule : Option Rrule := none
  ExDate : List GoTime := []
  DTStart : GoTime := goTimeZero
  DTEnd : GoTime := goTimeZero
  DTStamp : GoTime := goTimeZero
  Categories : List String := []
  Location : String := ""
  Geo : GeoPoint := {}
  URL : Option String := none
  Alarm : Option Alarm := none
  Organizer : Option Attendee := none
  Attendee : Option Attendee := none
  Participant : Option Ics.Attendee := none
  deriving DecidableEq, Repr

/-- Calendar from src/calendar.go. -/
structure Calendar where
  Properties : Props := []
  Version : String := ""
  Method : String := ""
  ProdID : String := ""
  Calscale : String := ""
  TimeZone : Option TimeZone := none
  Events : List Event := []
  deriving DecidableEq, Repr

/-- parseIcsDay from src/parser.go: the seven two-letter weekday codes. -/
def parseIcsDay (val : String) : Except String Weekday :=
  if val = "MO" then .ok .monday
  else if val = "TU" then .ok .tuesday
  else if val = "WE" then .ok .wednesday
  else if val = "TH" then .ok .thursday
  else if val = "FR" then .ok .friday
  else if val = "SA" then .ok .saturday
  else if val = "SU" then .ok .sunday
  else .error ("not valid Weekday value (" ++ val ++ ")")

/-- parseFrequency from src/calendar.go. -/
def parseFrequency (val : String) : Except String Frequency :=
  if val = "SECONDLY" then .ok .secondly
  else if val = "MINUTELY" then .ok .minutely
  else if val = "HOURLY" then .ok .hourly
  else if val = "DAILY" then .ok .daily
  else if val = "WEEKLY" then .ok .weekly
  else if val = "MONTHLY" then .ok .monthly
  else if val = "YEARLY" then .ok .yearly
  else .error ("not valid Frequency value (" ++ val ++ ")")

/-- The element loop of parseIntList from src/parser.go: every element must
parse as an integer and lie in the inclusive range lo..hi. -/
def intListGo (lo hi : Int) : List (List Char) → Except String (List Int)
  | [] => .ok []
  | e :: rest =>
    match atoi e with
    | none => .error "invalid syntax"
    | some n =>
      if n < lo ∨ n > hi then
        .error "must be in range"
      else
        (intListGo lo hi rest).map (fun l => n :: l)

/-- parseIntList from src/parser.go: split on commas, then validate every
element; the Go guard for an empty split result is kept although
strings.Split never returns an empty slice. -/
def parseIntList (val : List Char) (lo hi : Int) : Except String (List Int) :=
  if splitSep ',' val = [] then .ok []
  else intListGo lo hi (splitSep ',' val)

/-- The fmt.Sscanf(val, "%d%s", &num, &weekday) call of the BYDAY case in
parseRecur, src/parser.go. The %d verb skips leading spaces and reads an
optionally signed digit run; when it fails the scan stops with both outputs
left at their zero values (the Go code discards the error), which is what
the second component empty models. When %d succeeds, %s skips spaces and
reads a maximal non-space run (possibly empty at end of input). -/
def sscanfIntString (l : List Char) : Int × List Char :=
  let l1 := l.dropWhile (fun c => c = ' ' ∨ c = '\t')
  let (sign, body) :=
    match l1 with
    | '+' :: rest => ((1 : Int), rest)
    | '-' :: rest => ((-1 : Int), rest)
    | _ => ((1 : Int), l1)
  let digits := body.takeWhile Char.isDigit
  match digitsToNat digits with
  | none => (0, [])
  | some n =>
    let rest := body.dropWhile Char.isDigit
    let rest1 := rest.dropWhile (fun c => c = ' ' ∨ c = '\t')
    (sign * (n : Int), rest1.takeWhile (fun c => ¬(c = ' ' ∨ c = '\t')))

/-- One BYDAY token, translated from the body of the BYDAY loop in
parseRecur, src/parser.go: strip an optional sign (only '-' negates),
scan digits and weekday with Sscanf whose error is discarded, then decode
the weekday code; the empty token, on which the Go code would panic
indexing val[0], is modelled as an error. -/
def byDayToken (tok : List Char) : Except String WDay :=
  match tok with
  | [] => .error "panic: index out of range"
  | c :: rest =>
    let (sign, v) :=
      if c = '+' then ((1 : Int), rest)
      else if c = '-' then ((-1 : Int), rest)
      else ((1 : Int), tok)
    let (num, weekday) := sscanfIntString v
    match parseIcsDay (String.mk weekday) with
    | .error e => .error ("not valid BYDAY value: " ++ e)
    | .ok wd => .ok ⟨sign * num, wd⟩

/-- Sequential traversal of BYDAY tokens (the indexed for-loop filling
r.ByDay in src/parser.go). -/
def byDayList : List (List Char) → Except String (List WDay)
  | [] => .ok []
  | t :: rest =>
    match byDayToken t with
    | .error e => .error e
    | .ok w => (byDayList rest).map (fun l => w :: l)

/-- Sequential EXDATE traversal (the indexed for-loop filling e.ExDate in
src/parser.go); the date-time decoder is supplied by the caller. -/
def exDateList (pdt : String → Except String GoTime) :
    List (List Char) → Except String (List GoTime)
  | [] => .ok []
  | t :: rest =>
    match pdt (String.mk t) with
    | .error e => .error e
    | .ok d => (exDateList pdt rest).map (fun l => d :: l)

/-- parseParam from src/parser.go: a NAME=VALUE list joined by semicolons;
every pair must split on '=' into exactly two parts. The accumulated map is
threaded left to right, so a repeated key keeps the last value, exactly as
Go's ret[keyValue[0]] = keyValue[1] loop does. -/
def parseParamGo (m : Props) : List (List Char) → Except String Props
  | [] => .ok m
  | pair :: rest =>
    match splitSep '=' pair with
    | [k, v] => parseParamGo (propInsert m (String.mk k) (String.mk v)) rest
    | _ => .error ("not valid params: " ++ String.mk pair)

/-- parseParam entry point from src/parser.go; the empty string yields the
nil map. -/
def parseParam (val : String) : Except String Props :=
  if val = "" then .ok [] else parseParamGo [] (splitSep ';' val.toList)

/-- parseDuration from src/parser.go: fmt.Sscanf(val[1:], "%02d%02d") reads
two width-2 decimal numbers (at least one digit each); on the empty string
the Go indexing val[0] would panic, modelled as an error. The sign is taken
from the first character, negating only for '-'. -/
def parseDuration (val : List Char) : Except String Int :=
  match val with
  | [] => .error "panic: index out of range"
  | c0 :: rest =>
    let hd := rest.take 2 |>.takeWhile Char.isDigit
    match digitsToNat hd with
    | none => .error "cannot parse DURATION value"
    | some h =>
      let rest2 := rest.drop hd.length
      let md := rest2.take 2 |>.takeWhile Char.isDigit
      match digitsToNat md with
      | none => .error "cannot parse DURATION value"
      | some m =>
        let ret : Int := (h : Int) * 3600 + (m : Int) * 60
        if c0 = '-' then .ok (ret * -1) else .ok ret

/-- Number of days in a month, as Go time.Parse validates the day field
(leap-year aware for February). -/
def daysIn (y m : Int) : Int :=
  if m = 2 then
    if y % 4 = 0 ∧ (y % 100 ≠ 0 ∨ y % 400 = 0) then 29 else 28
  else if m = 4 ∨ m = 6 ∨ m = 9 ∨ m = 11 then 30
  else 31

/-- Reads exactly k decimal digits from the front as a number. Helper for
the Go time.Parse layouts, whose numeric chunks here are all fixed-width. -/
def readFixed (k : Nat) (l : List Char) : Option (Nat × List Char) :=
  let ds := l.take k
  if ds.length = k ∧ ds.all Char.isDigit then
    some ((digitsToNat ds).getD 0, l.drop k)
  else none

/-- Field validation of Go time.Parse: month 1..12, day within the month,
hour 0..23, minute and second 0..59. -/
def validCivil (y mo d h mi s : Int) : Bool :=
  1 ≤ mo ∧ mo ≤ 12 ∧ 1 ≤ d ∧ d ≤ daysIn y mo ∧
    0 ≤ h ∧ h ≤ 23 ∧ 0 ≤ mi ∧ mi ≤ 59 ∧ 0 ≤ s ∧ s ≤ 59

/-- Go time.Parse with layout "20060102T150405Z" (IcsFormatUTC in
src/parser.go): digits YYYYMMDD, literal T, digits HHMMSS, literal Z,
end of input; the result carries the default UTC location. -/
def tryFormatUTC (val : String) : Option GoTime :=
  match readFixed 4 val.toList with
  | none => none
  | some (y, r1) =>
    match readFixed 2 r1 with
    | none => none
    | some (mo, r2) =>
      match readFixed 2 r2 with
      | none => none
      | some (d, r3) =>
        match r3 with
        | 'T' :: r4 =>
          match readFixed 2 r4 with
          | none => none
          | some (h, r5) =>
            match readFixed 2 r5 with
            | none => none
            | some (mi, r6) =>
              match readFixed 2 r6 with
              | none => none
              | some (s, r7) =>
                if r7 = ['Z'] ∧ validCivil y mo d h mi s then
                  some ⟨civilToSec y mo d h mi s, utcLoc⟩
                else none
        | _ => none

/-- Go time.Parse with layout "20060102T150405" (IcsFormat in
src/parser.go): as the UTC form but without the trailing Z; time.Parse
attaches UTC when the layout carries no zone information. -/
def tryFormatLocal (val : String) : Option GoTime :=
  match readFixed 4 val.toList with
  | none => none
  | some (y, r1) =>
    match readFixed 2 r1 with
    | none => none
    | some (mo, r2) =>
      match readFixed 2 r2 with
      | none => none
      | some (d, r3) =>
        match r3 with
        | 'T' :: r4 =>
          match readFixed 2 r4 with
          | none => none
          | some (h, r5) =>
            match readFixed 2 r5 with
            | none => none
            | some (mi, r6) =>
              match readFixed 2 r6 with
              | none => none
              | some (s, r7) =>
                if r7 = [] ∧ validCivil y mo d h mi s then
                  some ⟨civilToSec y mo d h mi s, utcLoc⟩
                else none
        | _ => none

/-- Go time.Parse with layout "20060102" (IcsFormatDate in src/parser.go):
a bare date, midnight UTC. -/
def tryFormatDate (val : String) : Option GoTime :=
  match readFixed 4 val.toList with
  | none => none
  | some (y, r1) =>
    match readFixed 2 r1 with
    | none => none
    | some (mo, r2) =>
      match readFixed 2 r2 with
      | none => none
      | some (d, r3) =>
        if r3 = [] ∧ validCivil y mo d 0 0 0 then
          some ⟨civilToSec y mo d 0 0 0, utcLoc⟩
        else none

/-- Go time.LoadLocation, which consults the system IANA timezone database
(outside this repository). Modelled as a finite table giving each name its
UTC offset at the April 2015 instants this development evaluates
(Europe/Bratislava observes UTC+02:00 and America/New_York UTC-04:00 then);
any other name fails to resolve. -/
def loadLocation (name : String) : Option Location :=
  if name = "UTC" then some utcLoc
  else if name = "Europe/Bratislava" then some ⟨"Europe/Bratislava", 7200⟩
  else if name = "America/New_York" then some ⟨"America/New_York", -14400⟩
  else none

/-- The parameter-free branch of parseDateTime from src/parser.go (the
recursive call parseDateTime(nil, val)): try the UTC layout, then the local
layout, then the date-only layout, in that order. -/
def parseDateTimeNil (val : String) : Except String GoTime :=
  match tryFormatUTC val with
  | some t => .ok t
  | none =>
    match tryFormatLocal val with
    | some t => .ok t
    | none =>
      match tryFormatDate val with
      | some t => .ok t
      | none => .error ("cannot parse date-time value (" ++ val ++ ")")

/-- parseDateTime from src/parser.go: when the parameters carry TZID the
named location is resolved (failure is fatal), the value is decoded with no
parameters, and t.In(loc) is applied to the result; otherwise the three
layouts are tried in order. -/
def parseDateTime (par : Props) (val : String) : Except String GoTime :=
  match propLookup par "TZID" with
  | some timeZone =>
    match loadLocation timeZone with
    | none => .error ("cannot load time-zone (" ++ timeZone ++ ")")
    | some loc =>
      match parseDateTimeNil val with
      | .error e => .error e
      | .ok t => .ok (t.inLoc loc)
  | none => parseDateTimeNil val

/-- The GEO case of parseEvent from src/parser.go: the value is split on
';' and must have exactly two elements; ParseFloat is then invoked twice,
both times on point[0] (the first element), so the second element is parsed
into neither coordinate. -/
def parseGeo (val : String) : Except String GeoPoint :=
  match splitSep ';' val.toList with
  | [p0, _p1] =>
    match parseFloat p0 with
    | none => .error ("not valid geo-point value (" ++ val ++ ")")
    | some lat =>
      match parseFloat p0 with
      | none => .error ("not valid geo-point value (" ++ val ++ ")")
      | some lon => .ok ⟨lat, lon⟩
  | _ => .error ("not valid geo-point value (" ++ val ++ ")")

/-- One NAME=VALUE pair of an RRULE value: the switch body of parseRecur
from src/parser.go, including the per-key error-message wrapping; keys
outside the known set are ignored. -/
def recurStep (r : Rrule) (key : String) (v : List Char) :
    Except String Rrule :=
  if key = "FREQ" then
    match parseFrequency (String.mk v) with
    | .error e => .error e
    | .ok f => .ok { r with Freq := f }
  else if key = "UNTIL" then
    match parseDateTime [] (String.mk v) with
    | .error e => .error ("not valid UNTIL value: " ++ e)
    | .ok t => .ok { r with Until := some t }
  else if key = "COUNT" then
    match atoi v with
    | none => .error "not valid COUNT value"
    | some n => .ok { r with Count := some n }
  else if key = "INTERVAL" then
    match atoi v with
    | none => .error "not valid INTERVAL value"
    | some n => .ok { r with Interval := some n }
  else if key = "BYSECOND" then
    match parseIntList v 0 60 with
    | .error e => .error ("not valid BYSECOND value: " ++ e)
    | .ok l => .ok { r with BySecond := l }
  else if key = "BYMINUTE" then
    match parseIntList v 0 59 with
    | .error e => .error ("not valid BYMINUTE value: " ++ e)
    | .ok l => .ok { r with ByMinute := l }
  else if key = "BYHOUR" then
    match parseIntList v 0 24 with
    | .error e => .error ("not valid BYHOUR value: " ++ e)
    | .ok l => .ok { r with ByHour := l }
  else if key = "BYDAY" then
    match byDayList (splitSep ',' v) with
    | .error e => .error e
    | .ok l => .ok { r with ByDay := l }
  else if key = "BYMONTHDAY" then
    match parseIntList v 1 31 with
    | .error e => .error ("not valid BYMONTHDAY value: " ++ e)
    | .ok l => .ok { r with ByMonthday := l }
  else if key = "BYYEARDAY" then
    match parseIntList v 1 366 with
    | .error e => .error ("not valid BYYEARDAY value: " ++ e)
    | .ok l => .ok { r with ByYearday := l }
  else if key = "BYWEEKNO" then
    match parseIntList v 1 53 with
    | .error e => .error ("not valid BYWEEKNO value: " ++ e)
    | .ok l => .ok { r with ByWeekNo := l }
  else if key = "BYMONTH" then
    match parseIntList v 1 12 with
    | .error e => .error ("not valid BYMONTH value: " ++ e)
    | .ok l => .ok { r with ByMonth := l }
  else if key = "BYSETPOS" then
    match parseIntList v 1 366 with
    | .error e => .error ("not valid BYSETPOS value: " ++ e)
    | .ok l => .ok { r with BySetPos := l }
  else if key = "WKST" then
    match parseIcsDay (String.mk v) with
    | .error e => .error e
    | .ok wd => .ok { r with Wkst := some wd }
  else .ok r

/-- The pair loop of parseRecur from src/parser.go: each semicolon-joined
pair must split on '=' into exactly two parts, and the accumulated rule is
threaded through recurStep. -/
def recurPairs (r : Rrule) : List (List Char) → Except String Rrule
  | [] => .ok r
  | pair :: rest =>
    match splitSep '=' pair with
    | [k, v] =>
      match recurStep r (String.mk k) v with
      | .error e => .error e
      | .ok r2 => recurPairs r2 rest
    | _ => .error ("not valid recur-rule-part: " ++ String.mk pair)

/-- parseRecur from src/parser.go, over the raw value characters. -/
def parseRecurChars (val : List Char) : Except String Rrule :=
  recurPairs {} (splitSep ';' val)

/-- parseRecur entry point on a string value. -/
def parseRecur (val : String) : Except String Rrule :=
  parseRecurChars val.toList

/-- The scanner's next() over the token sequence: receiving from the closed
items channel yields Go's zero item, whose typ is itemError (the first enum
value) and whose val is the empty string. The backup/prevItem machinery of
the scanner in src/parser.go is never invoked by the parser, so a plain
list suffices. -/
def nextItem : List item → item × List item
  | [] => (⟨.itemError, ""⟩, [])
  | i :: rest => (i, rest)

/-- The test len(i.val) > 2 && i.val[:2] == "X-" together with the suffix
i.val[2:], from parseCalendar and parseEvent in src/parser.go. -/
def xSuffix (s : String) : Option String :=
  match s.toList with
  | 'X' :: '-' :: c :: cs => some (String.mk (c :: cs))
  | _ => none

/-- The property switch of parseEvent from src/parser.go: an X- prefixed
name goes verbatim into the open Properties map, every known standard name
decodes and assigns its field, and an unknown standard name is fatal.
url.Parse is modelled as accepting its input verbatim (it rejects only
control characters and malformed escapes, which no claim exercises). -/
def eventSwitch (e : Event) (nm : String) (par : Props) (val : String) :
    Except String Event :=
  match xSuffix nm with
  | some suf => .ok { e with Properties := propInsert e.Properties suf val }
  | none =>
    if nm = "CLASS" then
      if val = "PUBLIC" then .ok { e with Class := .classPublic }
      else if val = "PRIVATE" then .ok { e with Class := .classPrivate }
      else if val = "CONFIDENTIAL" then .ok { e with Class := .classConfidential }
      else .error ("not valid value for classification (" ++ val ++ ")")
    else if nm = "SUMMARY" then .ok { e with Summary := val }
    else if nm = "UID" then .ok { e with UID := val }
    else if nm = "STATUS" then .ok { e with Status := val }
    else if nm = "TRANSP" then .ok { e with Transp := val }
    else if nm = "LOCATION" then .ok { e with Location := val }
    else if nm = "CATEGORIES" then
      .ok { e with Categories := (splitSep ',' val.toList).map String.mk }
    else if nm = "DESCRIPTION" then .ok { e with Description := val }
    else if nm = "URL" then .ok { e with URL := some val }
    else if nm = "SEQUENCE" then
      match atoi val.toList with
      | none => .error "error parsing SEQUENCE value"
      | some n => .ok { e with Sequence := n }
    else if nm = "RRULE" then
      match parseRecur val with
      | .error er => .error ("error parsing Recur: " ++ er)
      | .ok r => .ok { e with Rrule := some r }
    else if nm = "GEO" then
      match parseGeo val with
      | .error er => .error er
      | .ok g => .ok { e with Geo := g }
    else if nm = "EXDATE" then
      match exDateList (parseDateTime []) (splitSep ',' val.toList) with
      | .error er => .error er
      | .ok l => .ok { e with ExDate := l }
    else if nm = "CREATED" then
      match parseDateTime par val with
      | .error er => .error er
      | .ok t => .ok { e with Created := t }
    else if nm = "LAST-MODIFIED" then
      match parseDateTime par val with
      | .error er => .error er
      | .ok t => .ok { e with LastModified := t }
    else if nm = "DTSTART" then
      match parseDateTime par val with
      | .error er => .error er
      | .ok t => .ok { e with DTStart := t }
    else if nm = "DTEND" then
      match parseDateTime par val with
      | .error er => .error er
      | .ok t => .ok { e with DTEnd := t }
    else if nm = "DTSTAMP" then
      match parseDateTime par val with
      | .error er => .error er
      | .ok t => .ok { e with DTStamp := t }
    else if nm = "ORGANIZER" then .ok { e with Organizer := some ⟨par, val⟩ }
    else if nm = "ATTENDEE" then .ok { e with Attendee := some ⟨par, val⟩ }
    else if nm = "PARTICIPANT" then .ok { e with Participant := some ⟨par, val⟩ }
    else .error ("unexpected item (" ++ nm ++ ") in VEVENT")

/-- parseAlarm from src/parser.go: the consumption loop of the VALARM
sub-parser. The fuel argument only bounds the loop; the top-level caller
supplies more fuel than there are tokens, so fuel exhaustion is unreachable
there. An itemError token falls into the default branch exactly as in Go,
where the switch has no itemError case. -/
def parseAlarm : Nat → Alarm → List item → Except String (Alarm × List item)
  | 0, _, _ => .error "out of fuel"
  | Nat.succ fuel, a, l =>
    let (i, rest) := nextItem l
    if i.typ = .itemEnd then
      if i.val = "END:VALARM" then .ok (a, rest)
      else .error ("unexpected (" ++ i.val ++ ") expected END:VALARM")
    else if i.typ = .itemProperty then
      let (iv, rest2) := nextItem rest
      if iv.typ = .itemValue then
        if i.val = "TRIGGER" then
          parseAlarm fuel { a with Trigger := iv.val } rest2
        else parseAlarm fuel a rest2
      else .error "unexpected item, expected value"
    else .error ("unexpected item in VALARM: (" ++ i.val ++ ")")

/-- The property switch of parseStandard from src/parser.go. -/
def standardSwitch (d : Standard) (nm : String) (par : Props) (val : String) :
    Except String Standard :=
  if nm = "RDATE" then .ok { d with Rdate := val }
  else if nm = "TZNAME" then .ok { d with TZName := val }
  else if nm = "TZOFFSETFROM" then
    match parseDuration val.toList with
    | .error er => .error er
    | .ok x => .ok { d with TZOffsetFrom := x }
  else if nm = "TZOFFSETTO" then
    match parseDuration val.toList with
    | .error er => .error er
    | .ok x => .ok { d with TZOffsetTo := x }
  else if nm = "DTSTART" then
    match parseDateTime par val with
    | .error er => .error er
    | .ok t => .ok { d with DTStart := t }
  else if nm = "RRULE" then
    match parseRecur val with
    | .error er => .error ("error parsing Recur: " ++ er)
    | .ok r => .ok { d with Rrule := some r }
  else .error ("unexpected property in DAYLIGHT: (" ++ nm ++ ")")

/-- parseStandard from src/parser.go: the DAYLIGHT/STANDARD sub-parser. -/
def parseStandard : Nat → Standard → List item →
    Except String (Standard × List item)
  | 0, _, _ => .error "out of fuel"
  | Nat.succ fuel, d, l =>
    let (i, rest) := nextItem l
    if i.typ = .itemEnd then
      if i.val = "END:DAYLIGHT" ∨ i.val = "END:STANDARD" then .ok (d, rest)
      else .error ("unexpected (" ++ i.val ++ ") END:DAYLIGHT or END:STANDARD")
    else if i.typ = .itemProperty then
      let (iv0, rest0) := nextItem rest
      if iv0.typ = .itemParam then
        match parseParam iv0.val with
        | .error er => .error er
        | .ok par =>
          let (iv1, rest1) := nextItem rest0
          if iv1.typ = .itemValue then
            match standardSwitch d i.val par iv1.val with
            | .error er => .error er
            | .ok d2 => parseStandard fuel d2 rest1
          else .error "unexpected item, expected value"
      else if iv0.typ = .itemValue then
        match standardSwitch d i.val [] iv0.val with
        | .error er => .error er
        | .ok d2 => parseStandard fuel d2 rest0
      else .error "unexpected item, expected value"
    else .error ("unexpected property in DAYLIGHT: (" ++ i.val ++ ")")

/-- parseTimeZone from src/parser.go: the VTIMEZONE sub-parser; both the
DAYLIGHT and the STANDARD child are assigned to the Standard field, exactly
as in the source. -/
def parseTimeZone : Nat → TimeZone → List item →
    Except String (TimeZone × List item)
  | 0, _, _ => .error "out of fuel"
  | Nat.succ fuel, tz, l =>
    let (i, rest) := nextItem l
    if i.typ = .itemEnd then
      if i.val = "END:VTIMEZONE" then .ok (tz, rest)
      else .error ("unexpected (" ++ i.val ++ ") END:VTIMEZONE")
    else if i.typ = .itemBegin then
      if i.val = "BEGIN:DAYLIGHT" ∨ i.val = "BEGIN:STANDARD" then
        match parseStandard fuel {} rest with
        | .error er => .error ("error parsing STANDARD: " ++ er)
        | .ok (st, rest2) =>
          parseTimeZone fuel { tz with Standard := some st } rest2
      else .error ("unexpected (" ++ i.val ++ ") after BEGIN:, expected DAYLIGHT or STANDARD")
    else if i.typ = .itemProperty then
      let (iv, rest2) := nextItem rest
      if iv.typ = .itemValue then
        if i.val = "TZID" then
          parseTimeZone fuel { tz with TZID := iv.val } rest2
        else if i.val = "TZURL" then
          parseTimeZone fuel { tz with TZURL := some iv.val } rest2
        else .error ("unexpected property in VTIMEZONE: (" ++ i.val ++ ")")
      else .error "unexpected item, expected value"
    else .error ("unexpected item in VTIMEZONE: (" ++ i.val ++ ")")

/-- parseEvent from src/parser.go: the VEVENT sub-parser, with the optional
itemParam lookahead before the value token. -/
def parseEvent : Nat → Event → List item → Except String (Event × List item)
  | 0, _, _ => .error "out of fuel"
  | Nat.succ fuel, e, l =>
    let (i, rest) := nextItem l
    if i.typ = .itemError then .error i.val
    else if i.typ = .itemEnd then
      if i.val = "END:VEVENT" then .ok (e, rest)
      else .error ("unexpected (" ++ i.val ++ ") expected END:VEVENT")
    else if i.typ = .itemBegin then
      if i.val = "BEGIN:VALARM" then
        match parseAlarm fuel {} rest with
        | .error er => .error er
        | .ok (a, rest2) => parseEvent fuel { e with Alarm := some a } rest2
      else .error ("unexpected (" ++ i.val ++ ") expected BEGIN:VALARM")
    else if i.typ = .itemProperty then
      let (iv0, rest0) := nextItem rest
      if iv0.typ = .itemParam then
        match parseParam iv0.val with
        | .error er => .error er
        | .ok par =>
          let (iv1, rest1) := nextItem rest0
          if iv1.typ = .itemValue then
            match eventSwitch e i.val par iv1.val with
            | .error er => .error er
            | .ok e2 => parseEvent fuel e2 rest1
          else .error "unexpected item, expected value"
      else if iv0.typ = .itemValue then
        match eventSwitch e i.val [] iv0.val with
        | .error er => .error er
        | .ok e2 => parseEvent fuel e2 rest0
      else .error "unexpected item, expected value"
    else .error ("unexpected item in VEVENT (" ++ i.val ++ ")")

/-- The property switch of parseCalendar from src/parser.go: X- names go
into the open map, the four known names assign their field, and (unlike the
component parsers) an unknown standard name is silently ignored because the
Go switch has no default case. -/
def calSwitchProp (cal : Calendar) (nm val : String) : Calendar :=
  match xSuffix nm with
  | some suf => { cal with Properties := propInsert cal.Properties suf val }
  | none =>
    if nm = "VERSION" then { cal with Version := val }
    else if nm = "PRODID" then { cal with ProdID := val }
    else if nm = "CALSCALE" then { cal with Calscale := val }
    else if nm = "METHOD" then { cal with Method := val }
    else cal

/-- The consumption loop of parseCalendar from src/parser.go. An explicit
itemEOF token makes the loop exit and return the calendar; the closed
channel instead delivers the zero item, which the itemError case turns into
a fatal error. -/
def parseCalendarLoop : Nat → Calendar → List item →
    Except String (Calendar × List item)
  | 0, _, _ => .error "out of fuel"
  | Nat.succ fuel, cal, l =>
    let (i, rest) := nextItem l
    if i.typ = .itemEOF then .ok (cal, rest)
    else if i.typ = .itemError then .error i.val
    else if i.typ = .itemEnd then
      if i.val = "END:VCALENDAR" then .ok (cal, rest)
      else .error ("unexpected (" ++ i.val ++ ") expected END:VCALENDAR")
    else if i.typ = .itemBegin then
      if i.val = "BEGIN:VEVENT" then
        match parseEvent fuel {} rest with
        | .error er => .error ("error parsing VEVENT: " ++ er)
        | .ok (e, rest2) =>
          parseCalendarLoop fuel { cal with Events := cal.Events ++ [e] } rest2
      else if i.val = "BEGIN:VTIMEZONE" then
        match parseTimeZone fuel {} rest with
        | .error er => .error ("error parsing VTIMEZONE: " ++ er)
        | .ok (tz, rest2) =>
          parseCalendarLoop fuel { cal with TimeZone := some tz } rest2
      else .error ("unexpected (" ++ i.val ++ ") after BEGIN:, expected VEVENT or VTIMEZONE")
    else if i.typ = .itemProperty then
      let (iv, rest2) := nextItem rest
      if iv.typ = .itemValue then
        parseCalendarLoop fuel (calSwitchProp cal i.val iv.val) rest2
      else .error "unexpected item, expected value"
    else .error "unexpected item in VCALENDAR"

/-- parseCalendar from src/parser.go: the opening token must be an
itemBegin whose payload is the full line BEGIN:VCALENDAR. The fuel passed
to the loop exceeds the number of remaining tokens, and every loop
iteration consumes at least one token, so the out-of-fuel branch is
unreachable from here. -/
def parseCalendar (l : List item) : Except String (Calendar × List item) :=
  let (i, rest) := nextItem l
  if i.typ = .itemBegin ∧ i.val = "BEGIN:VCALENDAR" then
    parseCalendarLoop (rest.length + 1) {} rest
  else
    .error ("iCalendar must start with BEGIN:VCALENDAR, not (" ++ i.val ++ ")")

/-- Modelled from the spec: line-ending normalization of the tokenizer
(section 6: lines terminated by CR, LF, or CRLF). -/
def normalizeNL : List Char → List Char
  | [] => []
  | '\r' :: '\n' :: rest => '\n' :: normalizeNL rest
  | '\r' :: rest => '\n' :: normalizeNL rest
  | c :: rest => c :: normalizeNL rest

/-- Modelled from the spec: iCalendar line unfolding (section 4.1: a line
break immediately followed by a single space or tab is removed, joining the
physical lines). -/
def unfoldLines : List Char → List Char
  | [] => []
  | '\n' :: ' ' :: rest => unfoldLines rest
  | '\n' :: '\t' :: rest => unfoldLines rest
  | c :: rest => c :: unfoldLines rest

/-- Modelled from the spec: per-logical-line token emission of the
tokenizer whose source is not under src/ (src/parser.go consumes itemBegin
and itemEnd tokens carrying the full BEGIN:NAME and END:NAME text and
itemProperty, itemParam, itemValue tokens, which src/lexer.go never
emits). Following section 4.1: BEGIN and END lines become dedicated tokens
carrying the component name; any other line splits into a PropertyName
token, an optional ParameterBlock token for a ;NAME=VALUE segment before
the colon, and a Value token with the raw rest of the line; a line with no
colon is a lexical error. -/
def tokenizeLine (l : List Char) : List item :=
  match l with
  | 'B' :: 'E' :: 'G' :: 'I' :: 'N' :: ':' :: _ => [⟨.itemBegin, String.mk l⟩]
  | 'E' :: 'N' :: 'D' :: ':' :: _ => [⟨.itemEnd, String.mk l⟩]
  | _ =>
    let name := l.takeWhile (fun c => c ≠ ':' ∧ c ≠ ';')
    let rest := l.dropWhile (fun c => c ≠ ':' ∧ c ≠ ';')
    match rest with
    | ':' :: v =>
      [⟨.itemProperty, String.mk name⟩, ⟨.itemValue, String.mk v⟩]
    | ';' :: r2 =>
      let par := r2.takeWhile (fun c => c ≠ ':')
      match r2.dropWhile (fun c => c ≠ ':') with
      | ':' :: v =>
        [⟨.itemProperty, String.mk name⟩, ⟨.itemParam, String.mk par⟩,
          ⟨.itemValue, String.mk v⟩]
      | _ => [⟨.itemError, "missing colon after parameters"⟩]
    | _ => [⟨.itemError, "missing colon in content line"⟩]

/-- Modelled from the spec: token production over the logical lines; a
lexical error token terminates production (section 4.1). -/
def emitLines : List (List Char) → List item
  | [] => []
  | ln :: rest =>
    let items := tokenizeLine ln
    if items.any (fun i => i.typ = .itemError) then items
    else items ++ emitLines rest

/-- Modelled from the spec: the tokenizer front end compatible with
src/parser.go, producing the finite token sequence the parser consumes.
Blank logical lines are skipped, as the whitespace-accepting states of the
character scanner do. -/
def specTokenize (s : String) : List item :=
  emitLines ((splitSep '\n' (unfoldLines (normalizeNL s.toList))).filter
    (fun ln => ln ≠ []))

/-- Parse from src/parser.go: tokenize, parse the calendar, and wrap any
error. -/
def Parse (s : String) : Except String Calendar :=
  match parseCalendar (specTokenize s) with
  | .error e => .error ("error parsing Calendar: " ++ e)
  | .ok (cal, _) => .ok cal

/-- State of the character-level scanner of src/lexer.go, restricted to
what its state functions observe: the unread input and the buffer of
already-scanned, not-yet-emitted characters. -/
structure LexSt where
  inp : List Char
  buf : List Char
  deriving DecidableEq, Repr

/-- The whitespace set of acceptWhitespace in src/lexer.go. -/
def wsChar (c : Char) : Bool :=
  c = ' ' ∨ c = '\t' ∨ c = '\n' ∨ c = '\r'

/-- acceptWhitespace from src/lexer.go: consume a run of whitespace, then
reset the buffer. -/
def acceptWhitespace (st : LexSt) : LexSt :=
  ⟨st.inp.dropWhile wsChar, []⟩

/-- readLetters from src/lexer.go: read letters until a non-letter (which
is unread) or end of input; the returned word is the whole buffer contents,
and the letters stay in the buffer for a later emit. -/
def readLetters (st : LexSt) : String × LexSt :=
  let w := st.inp.takeWhile Char.isAlpha
  (String.mk (st.buf ++ w), ⟨st.inp.dropWhile Char.isAlpha, st.buf ++ w⟩)

/-- Outcome of the lexVAlarm state function: continue scanning in lexVEvent
with the given state, or halt the scan (errorf returns the nil state). -/
inductive AlarmNext where
  | toLexVEvent (st : LexSt)
  | halt
  deriving DecidableEq, Repr

/-- lexVAlarm from src/lexer.go, lines 518-537, with its emissions made
explicit. After the whitespace skip the first word is read: END must be
followed by a colon and the word VALARM, emitting itemEnd, itemColon and
itemVAlarm and continuing in lexVEvent; the TRIGGER case emits itemTrigger
and then falls out of the switch into the unconditional errorf call, which
emits an error item and halts; every other word goes to errorf directly.
The line:column prefix of the Go error text is elided. -/
def lexVAlarm (st0 : LexSt) : List item × AlarmNext :=
  let st1 := acceptWhitespace st0
  let word := (readLetters st1).1
  let st2 := (readLetters st1).2
  if word = "END" then
    match st2.inp with
    | [] =>
      ([⟨.itemEnd, word⟩,
        ⟨.itemError, "unexpected character after END, expected colon (:)"⟩],
        .halt)
    | c :: rest3 =>
      if c = ':' then
        let word2 := (readLetters ⟨rest3, []⟩).1
        let st5 := (readLetters ⟨rest3, []⟩).2
        if word2 = "VALARM" then
          ([⟨.itemEnd, word⟩, ⟨.itemColon, ":"⟩, ⟨.itemVAlarm, word2⟩],
            .toLexVEvent ⟨st5.inp, []⟩)
        else
          ([⟨.itemEnd, word⟩, ⟨.itemColon, ":"⟩,
            ⟨.itemError, "unexpected word after END: (" ++ word2 ++ "), expected VALARM"⟩],
            .halt)
      else
        ([⟨.itemEnd, word⟩,
          ⟨.itemError, "unexpected character after END, expected colon (:)"⟩],
          .halt)
  else if word = "TRIGGER" then
    ([⟨.itemTrigger, word⟩,
      ⟨.itemError, "unexpected word in VALARM (" ++ word ++ ")"⟩], .halt)
  else
    ([⟨.itemError, "unexpected word in VALARM (" ++ word ++ ")"⟩], .halt)

/-- The first whitespace-delimited letter word of the pending input, as
lexVAlarm reads it. -/
def firstWord (st : LexSt) : String :=
  String.mk ((st.inp.dropWhile wsChar).takeWhile Char.isAlpha)

/-- A failing Except result. -/
def isErr {α : Type} (x : Except String α) : Prop :=
  ∃ e, x = .error e

instance {ε α : Type} [DecidableEq ε] [DecidableEq α] :
    DecidableEq (Except ε α) := fun x y =>
  match x, y with
  | .ok a, .ok b =>
    if h : a = b then isTrue (by rw [h])
    else isFalse (fun hc => h (by injection hc))
  | .error a, .error b =>
    if h : a = b then isTrue (by rw [h])
    else isFalse (fun hc => h (by injection hc))
  | .ok _, .error _ => isFalse (fun hc => Except.noConfusion hc)
  | .error _, .ok _ => isFalse (fun hc => Except.noConfusion hc)

/-- Claim C1: for the input consisting exactly of the two CRLF-terminated
lines BEGIN:VCALENDAR and END:VCALENDAR, Parse succeeds and returns a
Calendar whose Events sequence is empty and whose TimeZone is absent. -/
theorem claim_C1 :
    ∃ cal, Parse "BEGIN:VCALENDAR\r\nEND:VCALENDAR\r\n" = .ok cal ∧
      cal.Events = [] ∧ cal.TimeZone = none :=
  ⟨{}, rfl, rfl, rfl⟩

/-- Claim C3, evaluation at the failing input: decoding
GEO:37.5739497;-85.7399606 stores the first component into both
coordinates, so Longitude comes out 37.5739497 and not the second
component -85.7399606 that the claim (and RFC 5545) prescribe. -/
theorem claim_C3_eval :
    parseGeo "37.5739497;-85.7399606" =
      .ok ⟨mkRat 375739497 10000000, mkRat 375739497 10000000⟩ ∧
    (mkRat 375739497 10000000 ≠ mkRat (-857399606) 10000000) := by
  constructor
  · decide
  · decide

/-- Claim C7, evaluation at the failing input: the bare BYDAY token MO is
rejected (the discarded Sscanf error leaves the weekday string empty), both
alone and inside a full RRULE value, while tokens with ordinal digits such
as 2MO and -1SU decode as the claim describes. -/
theorem claim_C7_eval :
    parseRecur "FREQ=WEEKLY;BYDAY=MO" =
      .error "not valid BYDAY value: not valid Weekday value ()" ∧
    byDayToken "MO".toList =
      .error "not valid BYDAY value: not valid Weekday value ()" ∧
    byDayToken "2MO".toList = .ok ⟨2, .monday⟩ ∧
    byDayToken "-1SU".toList = .ok ⟨-1, .sunday⟩ := by
  refine ⟨?_, rfl, rfl, rfl⟩
  rfl

/-- Claim C4: a date-time value decoded with no TZID parameter tries
exactly the three layouts UTC (YYYYMMDD'T'HHMMSS'Z'), local
(YYYYMMDD'T'HHMMSS) and date-only (YYYYMMDD) in that order, returns the
first full match, and fails when none matches; 20150421T141403 decodes to
the naive timestamp 2015-04-21 14:14:03 and 20080212 to midnight on
2008-02-12, both carrying the default (UTC) location that Go time.Parse
attaches when the layout has no zone. -/
theorem claim_C4 : ∀ val : String,
    ((∀ t, tryFormatUTC val = some t → parseDateTime [] val = .ok t) ∧
     (tryFormatUTC val = none → ∀ t, tryFormatLocal val = some t →
        parseDateTime [] val = .ok t) ∧
     (tryFormatUTC val = none → tryFormatLocal val = none → ∀ t,
        tryFormatDate val = some t → parseDateTime [] val = .ok t) ∧
     (tryFormatUTC val = none → tryFormatLocal val = none →
        tryFormatDate val = none → isErr (parseDateTime [] val))) ∧
    parseDateTime [] "20150421T141403" =
      .ok ⟨civilToSec 2015 4 21 14 14 3, utcLoc⟩ ∧
    GoTime.fields ⟨civilToSec 2015 4 21 14 14 3, utcLoc⟩ =
      (2015, 4, 21, 14, 14, 3) ∧
    parseDateTime [] "20080212" = .ok ⟨civilToSec 2008 2 12 0 0 0, utcLoc⟩ ∧
    GoTime.fields ⟨civilToSec 2008 2 12 0 0 0, utcLoc⟩ =
      (2008, 2, 12, 0, 0, 0) := by
  intro val
  refine ⟨⟨?_, ?_, ?_, ?_⟩, ?_, ?_, ?_, ?_⟩
  · intro t h; simp [parseDateTime, propLookup, parseDateTimeNil, h]
  · intro h1 t h2
    simp [parseDateTime, propLookup, parseDateTimeNil, h1, h2]
  · intro h1 h2 t h3
    simp [parseDateTime, propLookup, parseDateTimeNil, h1, h2, h3]
  · intro h1 h2 h3
    exact ⟨"cannot parse date-time value (" ++ val ++ ")",
      by simp [parseDateTime, propLookup, parseDateTimeNil, h1, h2, h3]⟩
  · decide
  · decide
  · decide
  · decide

/-- Claim C4, witness: the local layout is the one that matches
20150421T141403 after the UTC layout has failed. -/
theorem claim_C4_witness :
    parseDateTime [] "20150421T141403" =
      .ok ⟨civilToSec 2015 4 21 14 14 3, utcLoc⟩ :=
  (claim_C4 "20150421T141403").1.2.1 (by decide) _ (by decide)

/-- Claim C5, counterexample: with TZID=Europe/Bratislava (UTC+02:00 at
this instant) the value 20150421T141403 decodes, via t.In(loc), to a
timestamp whose wall-clock fields in the resolved zone are 16:14:03 —
the written fields shifted by the offset — and not the written 14:14:03,
refuting the claim that the fields in that zone equal those written. -/
theorem claim_C5_counterexample :
    parseDateTime [("TZID", "Europe/Bratislava")] "20150421T141403" =
      .ok ⟨civilToSec 2015 4 21 14 14 3, ⟨"Europe/Bratislava", 7200⟩⟩ ∧
    GoTime.fields ⟨civilToSec 2015 4 21 14 14 3, ⟨"Europe/Bratislava", 7200⟩⟩ =
      (2015, 4, 21, 16, 14, 3) ∧
    ((2015, 4, 21, 16, 14, 3) : Int × Int × Int × Int × Int × Int) ≠
      (2015, 4, 21, 14, 14, 3) := by
  refine ⟨?_, ?_, ?_⟩ <;> decide

/-- Claim C5 as amended: with a TZID parameter present, an unresolvable
timezone name is fatal; otherwise the value is decoded with no parameters
and the result is handed to t.In(loc), which preserves the absolute
instant and attaches the resolved zone — so the returned timestamp has the
naive decode's epoch second and the resolved location, and its wall-clock
fields in that zone are the written fields shifted by the zone offset, not
the written fields themselves. -/
theorem claim_C5 : ∀ (par : Props) (val tz : String),
    propLookup par "TZID" = some tz →
    ((loadLocation tz = none → isErr (parseDateTime par val)) ∧
     ∀ loc, loadLocation tz = some loc →
       ((∀ t, parseDateTimeNil val = .ok t →
          parseDateTime par val = .ok ⟨t.sec, loc⟩) ∧
        (∀ e, parseDateTimeNil val = .error e →
          parseDateTime par val = .error e))) := by
  intro par val tz htz
  constructor
  · intro hl
    exact ⟨"cannot load time-zone (" ++ tz ++ ")",
      by simp [parseDateTime, htz, hl]⟩
  · intro loc hl
    constructor
    · intro t ht; simp [parseDateTime, htz, hl, ht, GoTime.inLoc]
    · intro e he; simp [parseDateTime, htz, hl, he]

/-- Claim C5, witness: the amended statement applied to the Bratislava
instance; the epoch second of the result equals that of the naive decode
while the attached location is the resolved zone. -/
theorem claim_C5_witness :
    parseDateTime [("TZID", "Europe/Bratislava")] "20150421T141403" =
      .ok ⟨(1429625643 : Int), ⟨"Europe/Bratislava", 7200⟩⟩ :=
  ((claim_C5 [("TZID", "Europe/Bratislava")] "20150421T141403"
      "Europe/Bratislava" (by decide)).2
    ⟨"Europe/Bratislava", 7200⟩ (by decide)).1
    ⟨1429625643, utcLoc⟩ (by decide)

lemma splitSep_ne_nil (sep : Char) (l : List Char) : splitSep sep l ≠ [] := by
  cases l with
  | nil => simp [splitSep]
  | cons c rest =>
    simp only [splitSep]
    split
    · simp
    · split <;> simp

lemma splitSep_of_all_ne (sep : Char) (l : List Char)
    (h : ∀ c ∈ l, c ≠ sep) : splitSep sep l = [l] := by
  induction l with
  | nil => rfl
  | cons c rest ih =>
    have hc : c ≠ sep := h c (List.mem_cons_self ..)
    have hr := ih (fun x hx => h x (List.mem_cons_of_mem _ hx))
    simp only [splitSep, if_neg hc, hr]

lemma splitSep_append_cons (sep : Char) (a b : List Char)
    (h : ∀ c ∈ a, c ≠ sep) :
    splitSep sep (a ++ sep :: b) = a :: splitSep sep b := by
  induction a with
  | nil => simp [splitSep]
  | cons c rest ih =>
    have hc : c ≠ sep := h c (List.mem_cons_self ..)
    have hr := ih (fun x hx => h x (List.mem_cons_of_mem _ hx))
    simp only [List.cons_append, splitSep, List.append_eq, if_neg hc, hr]

lemma intListGo_ok_iff (lo hi : Int) (es : List (List Char)) :
    (∃ L, intListGo lo hi es = .ok L) ↔
      ∀ e ∈ es, ∃ n, atoi e = some n ∧ lo ≤ n ∧ n ≤ hi := by
  induction es with
  | nil => simp [intListGo]
  | cons e rest ih =>
    cases ha : atoi e with
    | none =>
      simp only [intListGo, ha]
      constructor
      · rintro ⟨L, hL⟩
        exact absurd hL (by simp)
      · intro hall
        obtain ⟨n, hn, _⟩ := hall e (List.mem_cons_self ..)
        rw [ha] at hn
        exact absurd hn (by simp)
    | some n =>
      simp only [intListGo, ha]
      by_cases hr : n < lo ∨ n > hi
      · rw [if_pos hr]
        constructor
        · rintro ⟨L, hL⟩
          exact absurd hL (by simp)
        · intro hall
          obtain ⟨m, hm, hm1, hm2⟩ := hall e (List.mem_cons_self ..)
          rw [ha] at hm
          injection hm with hm
          subst hm
          exact absurd hr (by omega)
      · rw [if_neg hr]
        push_neg at hr
        constructor
        · rintro ⟨L, hL⟩ x hx
          rcases List.mem_cons.1 hx with rfl | hx2
          · exact ⟨n, ha, hr.1, hr.2⟩
          · cases hrest : intListGo lo hi rest with
            | error e2 =>
              rw [hrest] at hL
              exact absurd hL (by simp [Except.map])
            | ok L2 => exact ih.mp ⟨L2, hrest⟩ x hx2
        · intro hall
          obtain ⟨L2, hL2⟩ := ih.mpr (fun x hx => hall x (List.mem_cons_of_mem _ hx))
          exact ⟨n :: L2, by rw [hL2]; rfl⟩

lemma intListGo_ok_val (lo hi : Int) (es : List (List Char)) (L : List Int)
    (h : intListGo lo hi es = .ok L) :
    L = es.map (fun e => (atoi e).getD 0) := by
  induction es generalizing L with
  | nil =>
    rw [intListGo] at h
    injection h with h2
    simp [h2.symm]
  | cons e rest ih =>
    cases ha : atoi e with
    | none =>
      simp only [intListGo, ha] at h
      exact absurd h (by simp)
    | some n =>
      simp only [intListGo, ha] at h
      by_cases hr : n < lo ∨ n > hi
      · rw [if_pos hr] at h
        exact absurd h (by simp)
      · rw [if_neg hr] at h
        cases hrest : intListGo lo hi rest with
        | error e2 =>
          rw [hrest] at h
          exact absurd h (by simp [Except.map])
        | ok L2 =>
          rw [hrest] at h
          simp only [Except.map] at h
          injection h with h2
          simp [h2.symm, ha, ih L2 hrest]

lemma parseIntList_eq (val : List Char) (lo hi : Int) :
    parseIntList val lo hi = intListGo lo hi (splitSep ',' val) := by
  rw [parseIntList, if_neg (splitSep_ne_nil ',' val)]

lemma parseRecurChars_single (kl v : List Char)
    (hk : ∀ c ∈ kl, c ≠ ';' ∧ c ≠ '=') (hv : ∀ c ∈ v, c ≠ ';' ∧ c ≠ '=') :
    parseRecurChars (kl ++ '=' :: v) = recurStep {} (String.mk kl) v := by
  have h1 : splitSep ';' (kl ++ '=' :: v) = [kl ++ '=' :: v] := by
    apply splitSep_of_all_ne
    intro c hc
    rcases List.mem_append.1 hc with hmem | hmem
    · exact (hk c hmem).1
    · rcases List.mem_cons.1 hmem with rfl | hmem2
      · decide
      · exact (hv c hmem2).1
  have h2 : splitSep '=' (kl ++ '=' :: v) = [kl, v] := by
    rw [splitSep_append_cons '=' kl v (fun c hc => (hk c hc).2),
      splitSep_of_all_ne '=' v (fun c hc => (hv c hc).2)]
  rw [parseRecurChars, h1]
  simp only [recurPairs, h2]
  cases hstep : recurStep {} (String.mk kl) v <;> simp [recurPairs]

/-- Claim C6: a BYSECOND, BYMINUTE, BYHOUR, BYMONTHDAY, BYYEARDAY,
BYWEEKNO, BYMONTH or BYSETPOS list decodes successfully exactly when every
comma-separated element is a decimal integer inside the inclusive ranges
0-60, 0-59, 0-24, 1-31, 1-366, 1-53, 1-12 and 1-366 respectively, the
successful decode preserves the listed integers in input order, and
parseRecur wires each key to precisely those bounds and its field. -/
theorem claim_C6 :
    (∀ (lo hi : Int) (v : List Char),
      (∃ L, parseIntList v lo hi = .ok L) ↔
        ∀ e ∈ splitSep ',' v, ∃ n, atoi e = some n ∧ lo ≤ n ∧ n ≤ hi) ∧
    (∀ (lo hi : Int) (v : List Char) L, parseIntList v lo hi = .ok L →
      L = (splitSep ',' v).map (fun e => (atoi e).getD 0)) ∧
    (∀ kl v, (∀ c ∈ kl, c ≠ ';' ∧ c ≠ '=') →
      (∀ c ∈ v, c ≠ ';' ∧ c ≠ '=') →
      parseRecurChars (kl ++ '=' :: v) = recurStep {} (String.mk kl) v) ∧
    (∀ v L, parseIntList v 0 60 = .ok L →
      recurStep {} "BYSECOND" v = .ok { BySecond := L }) ∧
    (∀ v e, parseIntList v 0 60 = .error e →
      recurStep {} "BYSECOND" v = .error ("not valid BYSECOND value: " ++ e)) ∧
    (∀ v L, parseIntList v 0 59 = .ok L →
      recurStep {} "BYMINUTE" v = .ok { ByMinute := L }) ∧
    (∀ v e, parseIntList v 0 59 = .error e →
      recurStep {} "BYMINUTE" v = .error ("not valid BYMINUTE value: " ++ e)) ∧
    (∀ v L, parseIntList v 0 24 = .ok L →
      recurStep {} "BYHOUR" v = .ok { ByHour := L }) ∧
    (∀ v e, parseIntList v 0 24 = .error e →
      recurStep {} "BYHOUR" v = .error ("not valid BYHOUR value: " ++ e)) ∧
    (∀ v L, parseIntList v 1 31 = .ok L →
      recurStep {} "BYMONTHDAY" v = .ok { ByMonthday := L }) ∧
    (∀ v e, parseIntList v 1 31 = .error e →
      recurStep {} "BYMONTHDAY" v = .error ("not valid BYMONTHDAY value: " ++ e)) ∧
    (∀ v L, parseIntList v 1 366 = .ok L →
      recurStep {} "BYYEARDAY" v = .ok { ByYearday := L }) ∧
    (∀ v e, parseIntList v 1 366 = .error e →
      recurStep {} "BYYEARDAY" v = .error ("not valid BYYEARDAY value: " ++ e)) ∧
    (∀ v L, parseIntList v 1 53 = .ok L →
      recurStep {} "BYWEEKNO" v = .ok { ByWeekNo := L }) ∧
    (∀ v e, parseIntList v 1 53 = .error e →
      recurStep {} "BYWEEKNO" v = .error ("not valid BYWEEKNO value: " ++ e)) ∧
    (∀ v L, parseIntList v 1 12 = .ok L →
      recurStep {} "BYMONTH" v = .ok { ByMonth := L }) ∧
    (∀ v e, parseIntList v 1 12 = .error e →
      recurStep {} "BYMONTH" v = .error ("not valid BYMONTH value: " ++ e)) ∧
    (∀ v L, parseIntList v 1 366 = .ok L →
      recurStep {} "BYSETPOS" v = .ok { BySetPos := L }) ∧
    (∀ v e, parseIntList v 1 366 = .error e →
      recurStep {} "BYSETPOS" v = .error ("not valid BYSETPOS value: " ++ e)) := by
  refine ⟨?_, ?_, parseRecurChars_single, ?_⟩
  · intro lo hi v
    rw [parseIntList_eq]
    exact intListGo_ok_iff lo hi (splitSep ',' v)
  · intro lo hi v L h
    rw [parseIntList_eq] at h
    exact intListGo_ok_val lo hi _ L h
  · refine ⟨?_, ?_, ?_, ?_, ?_, ?_, ?_, ?_, ?_, ?_, ?_, ?_, ?_, ?_, ?_, ?_⟩ <;>
      intro v x h <;> simp +decide [recurStep, h]

/-- Claim C6, witness: a single-pair RRULE value BYSECOND=5,60 decodes via
the wiring and validation clauses to the rule whose BySecond field is
[5, 60]. -/
theorem claim_C6_witness :
    parseRecurChars ("BYSECOND".toList ++ '=' :: "5,60".toList) =
      .ok { BySecond := [5, 60] } :=
  (claim_C6.2.2.1 "BYSECOND".toList "5,60".toList (by decide) (by decide)).trans
    (claim_C6.2.2.2.1 "5,60".toList [5, 60] (by decide))

lemma parseAlarm_ok_shape :
    ∀ (fuel : Nat) (a : Alarm) (l : List item) (x : Alarm) (r : List item),
      parseAlarm fuel a l = .ok (x, r) →
      ∃ pre, l = pre ++ ⟨.itemEnd, "END:VALARM"⟩ :: r := by
  intro fuel
  induction fuel with
  | zero =>
    intro a l x r h
    exact absurd h (by simp [parseAlarm])
  | succ fuel ih =>
    intro a l x r h
    cases l with
    | nil =>
      simp [parseAlarm, nextItem] at h
    | cons i rest =>
      simp only [parseAlarm, nextItem] at h
      by_cases h1 : i.typ = .itemEnd
      · rw [if_pos h1] at h
        by_cases h2 : i.val = "END:VALARM"
        · rw [if_pos h2] at h
          injection h with h3
          have hr : rest = r := congrArg Prod.snd h3
          refine ⟨[], ?_⟩
          cases i with
          | mk t v =>
            simp only at h1 h2
            rw [h1, h2, hr]
            rfl
        · rw [if_neg h2] at h
          exact absurd h (by simp)
      · rw [if_neg h1] at h
        by_cases h3 : i.typ = .itemProperty
        · rw [if_pos h3] at h
          cases rest with
          | nil => simp [nextItem] at h
          | cons iv rest2 =>
            simp only [nextItem] at h
            by_cases h4 : iv.typ = .itemValue
            · rw [if_pos h4] at h
              by_cases h5 : i.val = "TRIGGER"
              · rw [if_pos h5] at h
                obtain ⟨pre, hpre⟩ := ih _ _ _ _ h
                exact ⟨i :: iv :: pre, by rw [hpre]; simp⟩
              · rw [if_neg h5] at h
                obtain ⟨pre, hpre⟩ := ih _ _ _ _ h
                exact ⟨i :: iv :: pre, by rw [hpre]; simp⟩
            · rw [if_neg h4] at h
              exact absurd h (by simp)
        · rw [if_neg h3] at h
          exact absurd h (by simp)

lemma parseEvent_ok_shape :
    ∀ (fuel : Nat) (e : Event) (l : List item) (x : Event) (r : List item),
      parseEvent fuel e l = .ok (x, r) →
      ∃ pre, l = pre ++ ⟨.itemEnd, "END:VEVENT"⟩ :: r := by
  intro fuel
  induction fuel with
  | zero =>
    intro e l x r h
    exact absurd h (by simp [parseEvent])
  | succ fuel ih =>
    intro e l x r h
    cases l with
    | nil => simp [parseEvent, nextItem] at h
    | cons i rest =>
      simp only [parseEvent, nextItem] at h
      by_cases h0 : i.typ = .itemError
      · rw [if_pos h0] at h
        exact absurd h (by simp)
      · rw [if_neg h0] at h
        by_cases h1 : i.typ = .itemEnd
        · rw [if_pos h1] at h
          by_cases h2 : i.val = "END:VEVENT"
          · rw [if_pos h2] at h
            injection h with h3
            have hr : rest = r := congrArg Prod.snd h3
            refine ⟨[], ?_⟩
            cases i with
            | mk t v =>
              simp only at h1 h2
              rw [h1, h2, hr]
              rfl
          · rw [if_neg h2] at h
            exact absurd h (by simp)
        · rw [if_neg h1] at h
          by_cases h3 : i.typ = .itemBegin
          · rw [if_pos h3] at h
            by_cases h4 : i.val = "BEGIN:VALARM"
            · rw [if_pos h4] at h
              cases halarm : parseAlarm fuel {} rest with
              | error er =>
                simp only [halarm] at h
                exact absurd h (by simp)
              | ok pr =>
                obtain ⟨a1, rest2⟩ := pr
                simp only [halarm] at h
                obtain ⟨pre2, hpre2⟩ := ih _ _ _ _ h
                obtain ⟨pre1, hpre1⟩ := parseAlarm_ok_shape _ _ _ _ _ halarm
                refine ⟨i :: pre1 ++ ⟨.itemEnd, "END:VALARM"⟩ :: pre2, ?_⟩
                rw [hpre1, hpre2]
                simp
            · rw [if_neg h4] at h
              exact absurd h (by simp)
          · rw [if_neg h3] at h
            by_cases h5 : i.typ = .itemProperty
            · rw [if_pos h5] at h
              cases rest with
              | nil => simp [nextItem] at h
              | cons iv0 rest0 =>
                simp only [nextItem] at h
                by_cases h6 : iv0.typ = .itemParam
                · rw [if_pos h6] at h
                  cases hpp : parseParam iv0.val with
                  | error er =>
                    simp only [hpp] at h
                    exact absurd h (by simp)
                  | ok par =>
                    simp only [hpp] at h
                    cases rest0 with
                    | nil => simp [nextItem] at h
                    | cons iv1 rest1 =>
                      simp only [nextItem] at h
                      by_cases h7 : iv1.typ = .itemValue
                      · rw [if_pos h7] at h
                        cases hes : eventSwitch e i.val par iv1.val with
                        | error er =>
                          simp only [hes] at h
                          exact absurd h (by simp)
                        | ok e2 =>
                          simp only [hes] at h
                          obtain ⟨pre, hpre⟩ := ih _ _ _ _ h
                          exact ⟨i :: iv0 :: iv1 :: pre, by rw [hpre]; simp⟩
                      · rw [if_neg h7] at h
                        exact absurd h (by simp)
                · rw [if_neg h6] at h
                  by_cases h7 : iv0.typ = .itemValue
                  · rw [if_pos h7] at h
                    cases hes : eventSwitch e i.val [] iv0.val with
                    | error er =>
                      simp only [hes] at h
                      exact absurd h (by simp)
                    | ok e2 =>
                      simp only [hes] at h
                      obtain ⟨pre, hpre⟩ := ih _ _ _ _ h
                      exact ⟨i :: iv0 :: pre, by rw [hpre]; simp⟩
                  · rw [if_neg h7] at h
                    exact absurd h (by simp)
            · rw [if_neg h5] at h
              exact absurd h (by simp)

lemma parseStandard_ok_shape :
    ∀ (fuel : Nat) (d : Standard) (l : List item) (x : Standard) (r : List item),
      parseStandard fuel d l = .ok (x, r) →
      ∃ pre v, l = pre ++ ⟨.itemEnd, v⟩ :: r ∧
        (v = "END:DAYLIGHT" ∨ v = "END:STANDARD") := by
  intro fuel
  induction fuel with
  | zero =>
    intro d l x r h
    exact absurd h (by simp [parseStandard])
  | succ fuel ih =>
    intro d l x r h
    cases l with
    | nil => simp [parseStandard, nextItem] at h
    | cons i rest =>
      simp only [parseStandard, nextItem] at h
      by_cases h1 : i.typ = .itemEnd
      · rw [if_pos h1] at h
        by_cases h2 : i.val = "END:DAYLIGHT" ∨ i.val = "END:STANDARD"
        · rw [if_pos h2] at h
          injection h with h3
          have hr : rest = r := congrArg Prod.snd h3
          cases i with
          | mk t v =>
            simp only at h1 h2
            refine ⟨[], v, ?_, h2⟩
            rw [h1, hr]
            rfl
        · rw [if_neg h2] at h
          exact absurd h (by simp)
      · rw [if_neg h1] at h
        by_cases h3 : i.typ = .itemProperty
        · rw [if_pos h3] at h
          cases rest with
          | nil => simp [nextItem] at h
          | cons iv0 rest0 =>
            simp only [nextItem] at h
            by_cases h6 : iv0.typ = .itemParam
            · rw [if_pos h6] at h
              cases hpp : parseParam iv0.val with
              | error er =>
                simp only [hpp] at h
                exact absurd h (by simp)
              | ok par =>
                simp only [hpp] at h
                cases rest0 with
                | nil => simp [nextItem] at h
                | cons iv1 rest1 =>
                  simp only [nextItem] at h
                  by_cases h7 : iv1.typ = .itemValue
                  · rw [if_pos h7] at h
                    cases hss : standardSwitch d i.val par iv1.val with
                    | error er =>
                      simp only [hss] at h
                      exact absurd h (by simp)
                    | ok d2 =>
                      simp only [hss] at h
                      obtain ⟨pre, v1, hpre, hv⟩ := ih _ _ _ _ h
                      exact ⟨i :: iv0 :: iv1 :: pre, v1, by rw [hpre]; simp, hv⟩
                  · rw [if_neg h7] at h
                    exact absurd h (by simp)
            · rw [if_neg h6] at h
              by_cases h7 : iv0.typ = .itemValue
              · rw [if_pos h7] at h
                cases hss : standardSwitch d i.val [] iv0.val with
                | error er =>
                  simp only [hss] at h
                  exact absurd h (by simp)
                | ok d2 =>
                  simp only [hss] at h
                  obtain ⟨pre, v1, hpre, hv⟩ := ih _ _ _ _ h
                  exact ⟨i :: iv0 :: pre, v1, by rw [hpre]; simp, hv⟩
              · rw [if_neg h7] at h
                exact absurd h (by simp)
        · rw [if_neg h3] at h
          exact absurd h (by simp)

lemma parseTimeZone_ok_shape :
    ∀ (fuel : Nat) (tz : TimeZone) (l : List item) (x : TimeZone) (r : List item),
      parseTimeZone fuel tz l = .ok (x, r) →
      ∃ pre, l = pre ++ ⟨.itemEnd, "END:VTIMEZONE"⟩ :: r := by
  intro fuel
  induction fuel with
  | zero =>
    intro tz l x r h
    exact absurd h (by simp [parseTimeZone])
  | succ fuel ih =>
    intro tz l x r h
    cases l with
    | nil => simp [parseTimeZone, nextItem] at h
    | cons i rest =>
      simp only [parseTimeZone, nextItem] at h
      by_cases h1 : i.typ = .itemEnd
      · rw [if_pos h1] at h
        by_cases h2 : i.val = "END:VTIMEZONE"
        · rw [if_pos h2] at h
          injection h with h3
          have hr : rest = r := congrArg Prod.snd h3
          refine ⟨[], ?_⟩
          cases i with
          | mk t v =>
            simp only at h1 h2
            rw [h1, h2, hr]
            rfl
        · rw [if_neg h2] at h
          exact absurd h (by simp)
      · rw [if_neg h1] at h
        by_cases h3 : i.typ = .itemBegin
        · rw [if_pos h3] at h
          by_cases h4 : i.val = "BEGIN:DAYLIGHT" ∨ i.val = "BEGIN:STANDARD"
          · rw [if_pos h4] at h
            cases hstd : parseStandard fuel {} rest with
            | error er =>
              simp only [hstd] at h
              exact absurd h (by simp)
            | ok pr =>
              obtain ⟨d1, rest2⟩ := pr
              simp only [hstd] at h
              obtain ⟨pre2, hpre2⟩ := ih _ _ _ _ h
              obtain ⟨pre1, v1, hpre1, _⟩ := parseStandard_ok_shape _ _ _ _ _ hstd
              refine ⟨i :: pre1 ++ ⟨.itemEnd, v1⟩ :: pre2, ?_⟩
              rw [hpre1, hpre2]
              simp
          · rw [if_neg h4] at h
            exact absurd h (by simp)
        · rw [if_neg h3] at h
          by_cases h5 : i.typ = .itemProperty
          · rw [if_pos h5] at h
            cases rest with
            | nil => simp [nextItem] at h
            | cons iv rest2 =>
              simp only [nextItem] at h
              by_cases h6 : iv.typ = .itemValue
              · rw [if_pos h6] at h
                by_cases h7 : i.val = "TZID"
                · rw [if_pos h7] at h
                  obtain ⟨pre, hpre⟩ := ih _ _ _ _ h
                  exact ⟨i :: iv :: pre, by rw [hpre]; simp⟩
                · rw [if_neg h7] at h
                  by_cases h8 : i.val = "TZURL"
                  · rw [if_pos h8] at h
                    obtain ⟨pre, hpre⟩ := ih _ _ _ _ h
                    exact ⟨i :: iv :: pre, by rw [hpre]; simp⟩
                  · rw [if_neg h8] at h
                    exact absurd h (by simp)
              · rw [if_neg h6] at h
                exact absurd h (by simp)
          · rw [if_neg h5] at h
            exact absurd h (by simp)

/-- Claim C2, counterexample: the claim's universal clause — every
BEGIN:<NAME> must be closed by END:<NAME> with the identical name, a
mismatch being fatal — is false of the program: the shared
STANDARD/DAYLIGHT sub-parser of parseStandard accepts END:STANDARD for a
component opened with BEGIN:DAYLIGHT, both at the token level and through
the whole pipeline, although the two END names differ. -/
theorem claim_C2_counterexample :
    Parse "BEGIN:VCALENDAR\r\nBEGIN:VTIMEZONE\r\nBEGIN:DAYLIGHT\r\nEND:STANDARD\r\nEND:VTIMEZONE\r\nEND:VCALENDAR\r\n" =
      .ok { TimeZone := some { Standard := some {} } } ∧
    parseTimeZone 3 {}
        [⟨.itemBegin, "BEGIN:DAYLIGHT"⟩, ⟨.itemEnd, "END:STANDARD"⟩,
          ⟨.itemEnd, "END:VTIMEZONE"⟩] =
      .ok ({ Standard := some {} }, []) ∧
    ("END:STANDARD" : String) ≠ "END:DAYLIGHT" :=
  ⟨rfl, rfl, by decide⟩

/-- Claim C2 as amended: an END token whose name is not an END that the
open component accepts is a fatal error in every component parser, and a
sub-parser returns successfully only after consuming such an END token —
where VEVENT, VALARM, VCALENDAR and VTIMEZONE each accept exactly the END
carrying their own name, while the single sub-parser shared by STANDARD
and DAYLIGHT accepts either END:DAYLIGHT or END:STANDARD regardless of
which of the two BEGINs opened it; in particular END:VEVENT arriving while
a VALARM is open aborts the parse, both at the token level and through the
whole pipeline on a concrete input. -/
theorem claim_C2 :
    (∀ (fuel : Nat) (e : Event) (v : String) (rest : List item),
      v ≠ "END:VEVENT" →
      isErr (parseEvent (fuel + 1) e (⟨.itemEnd, v⟩ :: rest))) ∧
    (∀ (fuel : Nat) (a : Alarm) (v : String) (rest : List item),
      v ≠ "END:VALARM" →
      isErr (parseAlarm (fuel + 1) a (⟨.itemEnd, v⟩ :: rest))) ∧
    (∀ (fuel : Nat) (c : Calendar) (v : String) (rest : List item),
      v ≠ "END:VCALENDAR" →
      isErr (parseCalendarLoop (fuel + 1) c (⟨.itemEnd, v⟩ :: rest))) ∧
    (∀ (fuel : Nat) (tz : TimeZone) (v : String) (rest : List item),
      v ≠ "END:VTIMEZONE" →
      isErr (parseTimeZone (fuel + 1) tz (⟨.itemEnd, v⟩ :: rest))) ∧
    (∀ (fuel : Nat) (d : Standard) (v : String) (rest : List item),
      v ≠ "END:DAYLIGHT" → v ≠ "END:STANDARD" →
      isErr (parseStandard (fuel + 1) d (⟨.itemEnd, v⟩ :: rest))) ∧
    (∀ (fuel : Nat) (d : Standard) (rest : List item),
      parseStandard (fuel + 1) d (⟨.itemEnd, "END:DAYLIGHT"⟩ :: rest) =
        .ok (d, rest) ∧
      parseStandard (fuel + 1) d (⟨.itemEnd, "END:STANDARD"⟩ :: rest) =
        .ok (d, rest)) ∧
    (∀ (fuel : Nat) (a : Alarm) (rest : List item),
      isErr (parseAlarm (fuel + 1) a (⟨.itemEnd, "END:VEVENT"⟩ :: rest))) ∧
    (∀ fuel a l x r, parseAlarm fuel a l = .ok (x, r) →
      ∃ pre, l = pre ++ ⟨.itemEnd, "END:VALARM"⟩ :: r) ∧
    (∀ fuel e l x r, parseEvent fuel e l = .ok (x, r) →
      ∃ pre, l = pre ++ ⟨.itemEnd, "END:VEVENT"⟩ :: r) ∧
    (∀ fuel tz l x r, parseTimeZone fuel tz l = .ok (x, r) →
      ∃ pre, l = pre ++ ⟨.itemEnd, "END:VTIMEZONE"⟩ :: r) ∧
    (∀ fuel d l x r, parseStandard fuel d l = .ok (x, r) →
      ∃ pre v, l = pre ++ ⟨.itemEnd, v⟩ :: r ∧
        (v = "END:DAYLIGHT" ∨ v = "END:STANDARD")) ∧
    isErr (Parse "BEGIN:VCALENDAR\r\nBEGIN:VEVENT\r\nBEGIN:VALARM\r\nEND:VEVENT\r\nEND:VCALENDAR\r\n") := by
  refine ⟨?_, ?_, ?_, ?_, ?_, ?_, ?_, parseAlarm_ok_shape, parseEvent_ok_shape,
    parseTimeZone_ok_shape, parseStandard_ok_shape, ?_⟩
  · intro fuel e v rest hv
    exact ⟨"unexpected (" ++ v ++ ") expected END:VEVENT",
      by simp [parseEvent, nextItem, hv]⟩
  · intro fuel a v rest hv
    exact ⟨"unexpected (" ++ v ++ ") expected END:VALARM",
      by simp [parseAlarm, nextItem, hv]⟩
  · intro fuel c v rest hv
    exact ⟨"unexpected (" ++ v ++ ") expected END:VCALENDAR",
      by simp [parseCalendarLoop, nextItem, hv]⟩
  · intro fuel tz v rest hv
    exact ⟨"unexpected (" ++ v ++ ") END:VTIMEZONE",
      by simp [parseTimeZone, nextItem, hv]⟩
  · intro fuel d v rest hv1 hv2
    exact ⟨"unexpected (" ++ v ++ ") END:DAYLIGHT or END:STANDARD",
      by simp [parseStandard, nextItem, hv1, hv2]⟩
  · intro fuel d rest
    constructor
    · simp [parseStandard, nextItem]
    · simp [parseStandard, nextItem]
  · intro fuel a rest
    exact ⟨"unexpected (END:VEVENT) expected END:VALARM",
      by simp [parseAlarm, nextItem]⟩
  · exact ⟨"error parsing Calendar: error parsing VEVENT: unexpected (END:VEVENT) expected END:VALARM",
      rfl⟩

/-- Claim C2, witness: the mismatched-END clause for VALARM applied to the
concrete token END:VEVENT. -/
theorem claim_C2_witness :
    isErr (parseAlarm 1 {} [⟨.itemEnd, "END:VEVENT"⟩]) :=
  claim_C2.2.1 0 {} "END:VEVENT" [] (by decide)

/-- Claim C8, counterexample: the property name consisting of exactly the
two characters X- carries the X- prefix, yet the parser's guard
len(i.val) > 2 excludes it, so it falls through to the fatal default branch
instead of being stored and parsing continuing — at the token level and
through the whole pipeline. -/
theorem claim_C8_counterexample :
    parseEvent 3 {}
        [⟨.itemProperty, "X-"⟩, ⟨.itemValue, "v"⟩,
          ⟨.itemEnd, "END:VEVENT"⟩] =
      .error "unexpected item (X-) in VEVENT" ∧
    Parse "BEGIN:VCALENDAR\r\nBEGIN:VEVENT\r\nX-:v\r\nEND:VEVENT\r\nEND:VCALENDAR\r\n" =
      .error "error parsing Calendar: error parsing VEVENT: unexpected item (X-) in VEVENT" :=
  ⟨rfl, rfl⟩

/-- Claim C8 as amended: every property whose name strictly extends the X-
prefix (at least one character follows X-) is stored in the event's open
Properties map under the suffix after X- and parsing continues without
error; in particular X-CUSTOM-FIELD:hello yields
Properties["CUSTOM-FIELD"] = "hello" and the rest of the input parses
normally. -/
theorem claim_C8 :
    (∀ (fuel : Nat) (e : Event) (c : Char) (cs : List Char) (val : String)
        (rest : List item),
      parseEvent (fuel + 1) e
          (⟨.itemProperty, String.mk ('X' :: '-' :: c :: cs)⟩ ::
            ⟨.itemValue, val⟩ :: rest) =
        parseEvent fuel
          { e with Properties :=
              propInsert e.Properties (String.mk (c :: cs)) val } rest) ∧
    (∃ cal,
      Parse "BEGIN:VCALENDAR\r\nBEGIN:VEVENT\r\nX-CUSTOM-FIELD:hello\r\nSUMMARY:hi\r\nEND:VEVENT\r\nEND:VCALENDAR\r\n" =
        .ok cal ∧
      ∃ ev evs, cal.Events = ev :: evs ∧
        propLookup ev.Properties "CUSTOM-FIELD" = some "hello" ∧
        ev.Summary = "hi") := by
  constructor
  · intro fuel e c cs val rest
    simp [parseEvent, nextItem, eventSwitch, xSuffix]
  · exact ⟨_, rfl, _, _, rfl, rfl, rfl⟩

lemma readLetters_fst (st : LexSt) :
    (readLetters (acceptWhitespace st)).1 = firstWord st := by
  simp [readLetters, acceptWhitespace, firstWord]

/-- Claim C10: the tokenizer of src/lexer.go accepts a VALARM body only
when its first word is the END that closes the alarm; every other first
word, including a TRIGGER property line, makes lexVAlarm emit an error item
as its last emission and halt the scan (TRIGGER first emits the itemTrigger
item and then falls unconditionally into the errorf path); moreover the
parser's alarm routine errors on an itemTrigger-typed item, while its
TRIGGER branch is only reachable from an itemProperty/itemValue pair, which
lexVAlarm never emits — so a token stream produced by this tokenizer never
yields an Alarm with a non-empty Trigger. -/
theorem claim_C10 :
    (∀ st : LexSt,
      (∃ st2, (lexVAlarm st).2 = .toLexVEvent st2 ∧
        (lexVAlarm st).1 =
          [⟨.itemEnd, "END"⟩, ⟨.itemColon, ":"⟩, ⟨.itemVAlarm, "VALARM"⟩] ∧
        firstWord st = "END") ∨
      ((lexVAlarm st).2 = .halt ∧
        ∃ pre msg, (lexVAlarm st).1 = pre ++ [⟨.itemError, msg⟩])) ∧
    (∀ st : LexSt, firstWord st = "TRIGGER" →
      (lexVAlarm st).1 =
        [⟨.itemTrigger, "TRIGGER"⟩,
          ⟨.itemError, "unexpected word in VALARM (TRIGGER)"⟩] ∧
      (lexVAlarm st).2 = .halt) ∧
    (∀ (fuel : Nat) (a : Alarm) (v : String) (rest : List item),
      isErr (parseAlarm (fuel + 1) a (⟨.itemTrigger, v⟩ :: rest))) ∧
    (∀ (fuel : Nat) (a : Alarm) (v : String) (rest : List item),
      parseAlarm (fuel + 1) a
          (⟨.itemProperty, "TRIGGER"⟩ :: ⟨.itemValue, v⟩ :: rest) =
        parseAlarm fuel { a with Trigger := v } rest) := by
  refine ⟨?_, ?_, ?_, ?_⟩
  · intro st
    by_cases hEnd : firstWord st = "END"
    · have hword : (readLetters (acceptWhitespace st)).1 = "END" := by
        rw [readLetters_fst]; exact hEnd
      cases hinp : (readLetters (acceptWhitespace st)).2.inp with
      | nil =>
        refine Or.inr ⟨?_, [⟨.itemEnd, "END"⟩],
          "unexpected character after END, expected colon (:)", ?_⟩
        · simp [lexVAlarm, hword, hinp]
        · simp [lexVAlarm, hword, hinp]
      | cons c rest3 =>
        by_cases hc : c = ':'
        · subst hc
          by_cases hV : (readLetters ⟨rest3, []⟩).1 = "VALARM"
          · refine Or.inl ⟨⟨(readLetters ⟨rest3, []⟩).2.inp, []⟩, ?_, ?_, hEnd⟩
            · simp [lexVAlarm, hword, hinp, hV]
            · simp [lexVAlarm, hword, hinp, hV]
          · refine Or.inr ⟨?_, [⟨.itemEnd, "END"⟩, ⟨.itemColon, ":"⟩],
              "unexpected word after END: (" ++ (readLetters ⟨rest3, []⟩).1 ++
                "), expected VALARM", ?_⟩
            · simp [lexVAlarm, hword, hinp, hV]
            · simp [lexVAlarm, hword, hinp, hV]
        · refine Or.inr ⟨?_, [⟨.itemEnd, "END"⟩],
            "unexpected character after END, expected colon (:)", ?_⟩
          · simp [lexVAlarm, hword, hinp, hc]
          · simp [lexVAlarm, hword, hinp, hc]
    · by_cases hT : firstWord st = "TRIGGER"
      · have hword : (readLetters (acceptWhitespace st)).1 = "TRIGGER" := by
          rw [readLetters_fst]; exact hT
        refine Or.inr ⟨?_, [⟨.itemTrigger, "TRIGGER"⟩],
          "unexpected word in VALARM (TRIGGER)", ?_⟩
        · simp [lexVAlarm, hword]
        · simp [lexVAlarm, hword]
      · have hword := readLetters_fst st
        refine Or.inr ⟨?_, [],
          "unexpected word in VALARM (" ++ firstWord st ++ ")", ?_⟩
        · simp [lexVAlarm, hword, hEnd, hT]
        · simp [lexVAlarm, hword, hEnd, hT]
  · intro st hT
    have hword : (readLetters (acceptWhitespace st)).1 = "TRIGGER" := by
      rw [readLetters_fst]; exact hT
    constructor
    · simp [lexVAlarm, hword]
    · simp [lexVAlarm, hword]
  · intro fuel a v rest
    exact ⟨"unexpected item in VALARM: (" ++ v ++ ")",
      by simp [parseAlarm, nextItem]⟩
  · intro fuel a v rest
    simp [parseAlarm, nextItem]

/-- Claim C10, witness: a VALARM body starting with a TRIGGER line makes
the tokenizer emit the trigger item followed by an error item and halt. -/
theorem claim_C10_witness :
    (lexVAlarm ⟨"TRIGGER:-PT15M\r\nEND:VALARM\r\n".toList, []⟩).1 =
      [⟨.itemTrigger, "TRIGGER"⟩,
        ⟨.itemError, "unexpected word in VALARM (TRIGGER)"⟩] ∧
    (lexVAlarm ⟨"TRIGGER:-PT15M\r\nEND:VALARM\r\n".toList, []⟩).2 = .halt :=
  claim_C10.2.1 ⟨"TRIGGER:-PT15M\r\nEND:VALARM\r\n".toList, []⟩ (by decide)

/-- Claim C9: parsing is a deterministic function of the input text; two
independent runs of Parse on the same input yield structurally equal
results. In this embedding the token queue of the Go implementation is the
pure value specTokenize produces, so determinism is by construction. -/
theorem claim_C9 : ∀ s : String, Parse s = Parse s :=
  fun _ => rfl

end Ics
